import Mathlib

/-!
Verification development for the Apache configuration-tree parser and
runtime-reconciliation engine of the certbot Apache plugin.

The implementation module (certbot_apache._internal.parser together with
its helper certbot_apache._internal.apache_util) is not part of the source
snapshot; only its test suite (tests/parser_test.py) is.  The definitions
below are therefore modelled from the specification, with the concrete
behaviour pinned by the repository's test suite wherever the tests exercise
it (in particular the handling of the DUMP_RUN_CFG marker inside the
variables report, which the tests pin and which the spec's design notes
flag as an open question).

Strings are processed through their underlying character lists so that all
definitions are executable and kernel-reducible.
-/

set_option maxRecDepth 8000

deriving instance DecidableEq for Except

namespace Certbot

/-- Error taxonomy of the plugin (certbot.errors), restricted to the kinds
the parser core raises: the generic domain error (PluginError), the
live-server introspection failure (MisconfigurationError), and the two
construction-time failures. -/
inductive ApacheError where
  | pluginError
  | misconfigurationError
  | noInstallationError
  | notSupportedError
deriving DecidableEq

/-- Splits a character list on a separator character; the separator is
dropped and empty segments are kept. -/
def splitOnChar (c : Char) : List Char → List (List Char)
  | [] => [[]]
  | x :: xs =>
    match splitOnChar c xs with
    | [] => [[]]
    | h :: t => if x = c then [] :: h :: t else (x :: h) :: t

/-- The lines of a report string, split on newline characters. -/
def reportLines (s : String) : List (List Char) :=
  splitOnChar '\n' s.data

/-- Removes leading and trailing space characters. -/
def stripSpaces (l : List Char) : List Char :=
  ((l.dropWhile (· = ' ')).reverse.dropWhile (· = ' ')).reverse

/-- Modelled from the spec: extraction of one token of the variables
report.  A line of the form Define: NAME or Define: NAME=VALUE yields the
token after the Define: marker up to the first space (the regular
expression group of parse_defines); any other line yields nothing. -/
def extractDefine (line : List Char) : Option (List Char) :=
  if ("Define: ".data).isPrefixOf line then
    some ((line.drop 8).takeWhile (fun c => c ≠ ' '))
  else
    none

/-- All Define tokens of a variables report, in report order. -/
def definesOf (s : String) : List (List Char) :=
  (reportLines s).filterMap extractDefine

/-- A variables report contains a malformed Define line: some Define token
carries more than one unescaped equals character. -/
def hasMalformedDefine (s : String) : Bool :=
  (definesOf s).any (fun t => 1 < t.count '=')

/-- The VariableTable: defined names mapped to their string values. -/
abbrev VariableTable := List (String × String)

/-- Dictionary insertion into the variable table: an existing binding of
the same name is overwritten in place, a new name is appended. -/
def insertVar (table : VariableTable) (k v : String) : VariableTable :=
  match table with
  | [] => [(k, v)]
  | (k', v') :: rest =>
    if k' = k then (k, v) :: rest else (k', v') :: insertVar rest k v

/-- Name part of a Define token: the text before the first equals sign. -/
def defineName (t : List Char) : String :=
  ⟨t.takeWhile (fun c => c ≠ '=')⟩

/-- Value part of a Define token: the text after the first equals sign, or
the empty string when the token carries no equals sign. -/
def defineValue (t : List Char) : String :=
  ⟨(t.dropWhile (fun c => c ≠ '=')).drop 1⟩

/-- Modelled from the spec: the token loop of parse_defines.  Each token
with more than one unescaped equals sign aborts the whole parse with the
generic domain error; otherwise the token contributes its name mapped to
its (possibly empty) value. -/
def buildVars (acc : VariableTable) : List (List Char) → Except ApacheError VariableTable
  | [] => .ok acc
  | t :: ts =>
    if 1 < t.count '=' then .error .pluginError
    else buildVars (insertVar acc (defineName t) (defineValue t)) ts

/-- The marker token the live server emits back for the -D DUMP_RUN_CFG
invocation of the variables dump. -/
def dumpRunCfgMarker : List Char := "DUMP_RUN_CFG".data

/-- Modelled from the spec: parse_defines of apache_util, the parser of
the variables report (the implementation file is absent from the
snapshot).  The marker handling follows the repository's tests
(test_update_runtime_variables and test_update_runtime_vars_bad_output):
when the DUMP_RUN_CFG marker token is absent from the report the whole
parse yields an empty table without error; when it is present, the marker
itself is discarded and every remaining token is parsed, a token with more
than one unescaped equals sign failing the parse with the generic domain
error. -/
def parse_defines (s : String) : Except ApacheError VariableTable :=
  let toks := definesOf s
  if dumpRunCfgMarker ∈ toks then
    buildVars [] (toks.erase dumpRunCfgMarker)
  else
    .ok []

example : parse_defines "Define: TLS=443=24" = .ok [] := by decide

example :
    parse_defines "Define: DUMP_RUN_CFG\nDefine: TLS=443=24" =
      .error .pluginError := by decide

example :
    parse_defines "Define: DUMP_RUN_CFG\nDefine: TLS=443" =
      .ok [("TLS", "443")] := by decide

/-- The list of all suffixes of a character list, the list itself first. -/
def suffixes : List Char → List (List Char)
  | [] => [[]]
  | c :: cs => (c :: cs) :: suffixes cs

/-- Wildcard matching by structural recursion on the pattern: an empty
pattern matches only the empty text, a star consumes any prefix of the
text (the rest of the pattern must match some suffix), and every other
pattern character matches exactly itself. -/
def fnmatchGo : List Char → List Char → Bool
  | [], s => s.isEmpty
  | p :: ps, s =>
    if p = '*' then (suffixes s).any (fun t => fnmatchGo ps t)
    else
      match s with
      | [] => false
      | c :: cs => decide (p = c) && fnmatchGo ps cs

/-- Shell-style wildcard match of a file path against a pattern, as the
fnmatch check of parsed_in_current uses it: a star matches any (possibly
empty) run of characters, every other pattern character matches itself.
The first argument is the path, the second the pattern. -/
def fnmatch (s pat : List Char) : Bool :=
  fnmatchGo pat s

/-- Modelled from the spec: extraction of one file path from the includes
report.  A line whose content after leading spaces starts with a
parenthesised source-order marker followed by a space yields the remainder
of the line as a path; every other line is skipped. -/
def includeLinePath (line : List Char) : Option String :=
  match line.dropWhile (· = ' ') with
  | '(' :: rest =>
    match rest.dropWhile (fun c => c ≠ ')') with
    | ')' :: ' ' :: path => some ⟨path⟩
    | _ => none
  | _ => none

/-- The file paths listed by an includes report, in report order. -/
def parse_includes (s : String) : List String :=
  (reportLines s).filterMap includeLinePath

/-- A file path is already covered by the parsed-file set: some recorded
pattern (an exact previously loaded path, or a wildcard-style include)
matches it. -/
def coveredBy (patterns : List String) (f : String) : Bool :=
  patterns.any (fun p => fnmatch f.data p.data)

/-- Modelled from the spec: the file-load selection of update_includes.
Each file listed by the includes report that is not already covered by the
parsed-file set is loaded (one parse_file call per listed uncovered
entry); covered files are skipped. -/
def filesToLoad (patterns : List String) (incOut : String) : List String :=
  (parse_includes incOut).filter (fun f => !(coveredBy patterns f))

/-- Modelled from the spec: extraction of one module name from the modules
report.  A line containing the module suffix yields the text before its
first occurrence, stripped of surrounding spaces; other lines are
skipped. -/
def takeBefore (pat : List Char) : List Char → Option (List Char)
  | [] => none
  | c :: cs =>
    if pat.isPrefixOf (c :: cs) then some []
    else (takeBefore pat cs).map (fun r => c :: r)

/-- Module name of one modules-report line, when the line names one. -/
def moduleNameOf (line : List Char) : Option (List Char) :=
  (takeBefore ("_module".data) line).map stripSpaces

/-- The module names listed by a modules report, in report order. -/
def parse_modules_output (s : String) : List (List Char) :=
  (reportLines s).filterMap moduleNameOf

/-- The ModuleTable: module identifiers mapped to a defining file path or
the built-in sentinel (none). -/
abbrev ModuleTable := List (List Char × Option String)

/-- First identifier a module is registered under: its name with the
module suffix appended. -/
def modKeyA (n : List Char) : List Char := n ++ ("_module".data)

/-- Second identifier a module is registered under: its name wrapped into
the conventional source-file form. -/
def modKeyB (n : List Char) : List Char := ("mod_".data) ++ n ++ (".c".data)

/-- Whether the module table already registers the given identifier. -/
def hasKey : ModuleTable → List Char → Bool
  | [], _ => false
  | e :: t, k => if e.1 = k then true else hasKey t k

/-- Modelled from the spec and tests: add_mod, the per-line registration
of the modules report.  Each module name is registered under two
identifiers, each appended only when not already present, both mapped to
the built-in sentinel. -/
def add_mod (t : ModuleTable) (n : List Char) : ModuleTable :=
  let t1 := cond (hasKey t (modKeyA n)) t (t ++ [(modKeyA n, none)])
  cond (hasKey t1 (modKeyB n)) t1 (t1 ++ [(modKeyB n, none)])

/-- Outcome of spawning the live-server introspection subprocess: the
spawn itself can fail, or the process finishes with an exit status and its
captured output. -/
inductive SubprocResult where
  | spawnFailure
  | finished (exitCode : Int) (output : String)

/-- Modelled from the spec: the subprocess wrapper of apache_util.  A
spawn failure or a non-zero exit status is surfaced as the distinct
server-unusable error; a clean exit yields the captured report text. -/
def getRuntimeCfg : SubprocResult → Except ApacheError String
  | .spawnFailure => .error .misconfigurationError
  | .finished code out =>
    if code = 0 then .ok out else .error .misconfigurationError

/-- The three live-server introspection invocations one reconciliation
performs: the variables, includes and modules dumps. -/
structure RuntimeEnv where
  vars : SubprocResult
  includes : SubprocResult
  modules : SubprocResult

/-- The reconciliation-relevant state of one parser instance: the
committed variable table, the committed module table, the patterns
describing the parsed-file set, and the record of files loaded by
reconciliation (one entry per parse_file call). -/
structure ParserState where
  varTable : VariableTable
  modules : ModuleTable
  parserPatterns : List String
  parsedFiles : List String
deriving DecidableEq

/-- Modelled from the spec: update_runtime_variables, the reconcile
operation.  The variables dump is obtained and parsed first and the
variable table committed; then the includes dump is obtained and every
listed uncovered file loaded; then the modules dump is obtained and each
listed module registered under its two identifiers.  A subprocess failure
or a parse failure stops the sequence at that point with the
corresponding error. -/
def update_runtime_variables (st : ParserState) (env : RuntimeEnv) :
    ParserState × Option ApacheError :=
  match getRuntimeCfg env.vars with
  | .error e => (st, some e)
  | .ok vOut =>
    match parse_defines vOut with
    | .error e => (st, some e)
    | .ok tbl =>
      let st1 : ParserState := { st with varTable := tbl }
      match getRuntimeCfg env.includes with
      | .error e => (st1, some e)
      | .ok iOut =>
        let st2 : ParserState :=
          { st1 with
            parsedFiles := st1.parsedFiles ++ filesToLoad st1.parserPatterns iOut }
        match getRuntimeCfg env.modules with
        | .error e => (st2, some e)
        | .ok mOut =>
          ({ st2 with
             modules := (parse_modules_output mOut).foldl add_mod st2.modules },
           none)

/-- An initial parser state, empty except for the given parsed-file
patterns. -/
def initState (patterns : List String) : ParserState :=
  { varTable := [], modules := [], parserPatterns := patterns, parsedFiles := [] }

/-- An environment in which all three introspection invocations exit
cleanly with the given outputs. -/
def cleanEnv (vOut iOut mOut : String) : RuntimeEnv :=
  { vars := .finished 0 vOut, includes := .finished 0 iOut,
    modules := .finished 0 mOut }

example :
    (update_runtime_variables (initState []) (cleanEnv "Define: TLS=443=24" "x" "x")).2
      = none := by decide

example :
    (update_runtime_variables (initState [])
        (cleanEnv "Define: DUMP_RUN_CFG\nDefine: TLS=443=24" "x" "x"))
      = (initState [], some .pluginError) := by decide

example :
    parse_includes "Included configuration files:\n  (*) /etc/apache2/apache2.conf\n    (146) /etc/apache2/mods-enabled/alias.load"
      = ["/etc/apache2/apache2.conf", "/etc/apache2/mods-enabled/alias.load"] := by
  decide

example : fnmatch "/etc/a/b.conf".data "/etc/a/*.conf".data = true := by decide

example : fnmatch "/etc/a/b.conf".data "/etc/b/*.conf".data = false := by decide

example :
    parse_modules_output "Loaded Modules:\n core_module (static)\n ssl_module (shared)"
      = ["core".data, "ssl".data] := by decide

example :
    ((parse_modules_output "Loaded Modules:\n core_module (static)\n ssl_module (shared)").foldl
        add_mod []).length = 4 := by decide

/-- A directive of the configuration tree: a name and its ordered argument
values. -/
abbrev Directive := String × List String

/-- One parsed configuration file: whether it is in effect (globally
loaded, or reachable from an enabled-site include) and its directives.
The directive search of find_dir descends to every depth, so nested
section contents are listed at their traversal position. -/
structure ConfigFile where
  enabled : Bool
  dirs : List Directive

/-- Lower-casing of a directive name, character by character. -/
def lowerStr (s : String) : String :=
  ⟨s.data.map Char.toLower⟩

/-- Modelled from the spec: the match condition of find_dir.  The
directive name is compared case-insensitively against the query; an
optional value restricts the match to directives carrying that exact
argument. -/
def dirMatches (query : String) (value : Option String) (d : Directive) : Bool :=
  lowerStr d.1 = lowerStr query &&
    match value with
    | none => true
    | some v => d.2.contains v

/-- The matching directives of one file's directive list, in order. -/
def findInDirs (query : String) (value : Option String) :
    List Directive → List Directive
  | [] => []
  | d :: rest =>
    if dirMatches query value d then d :: findInDirs query value rest
    else findInDirs query value rest

/-- Modelled from the spec: find_dir over the session tree.  Only files in
effect contribute; matches are returned in tree traversal order and an
empty result is success, never an error. -/
def find_dir (tree : List ConfigFile) (query : String) (value : Option String) :
    List Directive :=
  match tree with
  | [] => []
  | f :: rest =>
    (if f.enabled then findInDirs query value f.dirs else []) ++
      find_dir rest query value

/-- Independent count of the directives of one file matching a query,
written as a direct recursion rather than through the search. -/
def countInDirs (query : String) (value : Option String) : List Directive → Nat
  | [] => 0
  | d :: rest =>
    (if dirMatches query value d then 1 else 0) + countInDirs query value rest

/-- Independent count of the matching directives across the in-effect
files of the tree. -/
def countDir (tree : List ConfigFile) (query : String) (value : Option String) :
    Nat :=
  match tree with
  | [] => 0
  | f :: rest =>
    (if f.enabled then countInDirs query value f.dirs else 0) +
      countDir rest query value

/-- Modelled from the spec: add_dir_beginning.  One directive per value is
inserted before all existing children of the addressed node, the inserted
batch keeping its input order and the existing children keeping theirs. -/
def add_dir_beginning (children : List Directive) (name : String)
    (values : List String) : List Directive :=
  (values.map fun v => (name, [v])) ++ children

/-- The argument values read back by a find_dir call over a node's
children, flattened in traversal order. -/
def readValues (children : List Directive) (query : String) : List String :=
  ((findInDirs query none children).map Prod.snd).flatten

/-- Fixture tree mirroring the test configuration: across the in-effect
files exactly one Listen directive carries the argument 80 and exactly
eight DocumentRoot directives exist, while a site that is present on disk
but not enabled holds a ninth one that must stay invisible. -/
def fixtureTree : List ConfigFile :=
  [ { enabled := true,
      dirs := [("ServerName", ["localhost"]), ("Listen", ["80"]),
               ("Listen", ["443"])] },
    { enabled := true,
      dirs := [("VirtualHost", ["*:80"]), ("DocumentRoot", ["/var/www/a"]),
               ("documentroot", ["/var/www/b"]), ("ServerAlias", ["a.example"]),
               ("DocumentRoot", ["/var/www/c"])] },
    { enabled := true,
      dirs := [("DOCUMENTROOT", ["/var/www/d"]), ("DocumentRoot", ["/var/www/e"]),
               ("DocumentRoot", ["/var/www/f"])] },
    { enabled := true,
      dirs := [("DocumentRoot", ["/var/www/g"]), ("DocumentRoot", ["/var/www/h"])] },
    { enabled := false,
      dirs := [("DocumentRoot", ["/var/www/disabled"]), ("Listen", ["80"])] } ]

example : (find_dir fixtureTree "Listen" (some "80")).length = 1 := by decide

example : (find_dir fixtureTree "documentroot" none).length = 8 := by decide

/-- The root and location resolution model.  A raw path is an absolute
flag plus its separator-split segments; duplicated separators and trailing
separators appear as empty segments. -/
structure RawPath where
  absolute : Bool
  segs : List String

/-- One step of path normalization over a segment stack: empty and
current-directory segments are dropped, a parent segment pops the stack,
and every other segment is pushed. -/
def normSegsAux (acc : List String) : List String → List String
  | [] => acc
  | s :: rest =>
    if s = "" ∨ s = "." then normSegsAux acc rest
    else if s = ".." then normSegsAux acc.dropLast rest
    else normSegsAux (acc ++ [s]) rest

/-- Modelled from the spec: the root-path normalization of resolveRoot.
Duplicate separators are collapsed, parent segments resolved, trailing
separators stripped; the result is the canonical absolute segment list. -/
def normSegs (l : List String) : List String :=
  normSegsAux [] l

/-- Modelled from the spec: conversion of the raw constructor argument to
the canonical absolute root path.  A relative path is resolved against the
current working directory first. -/
def resolveRootPath (cwd : List String) (p : RawPath) : List String :=
  normSegs (if p.absolute then p.segs else cwd ++ p.segs)

/-- The environment construction observes: whether the external tree
engine reports a version at least the minimum supported, and whether the
normalized root's expected entry file exists. -/
structure ResolveEnv where
  versionOk : Bool
  entryExists : Bool

/-- Modelled from the spec: resolveRoot, the construction-time root
resolution.  The raw path is normalized; a missing entry file fails with
NoInstallationError, an engine version below the minimum fails with
NotSupportedError, and only otherwise does construction produce the
canonical root. -/
def resolveRoot (cwd : List String) (p : RawPath) (e : ResolveEnv) :
    Except ApacheError (List String) :=
  if e.entryExists = false then .error .noInstallationError
  else if e.versionOk = false then .error .notSupportedError
  else .ok (resolveRootPath cwd p)

example :
    resolveRootPath ["tmp", "t"]
        { absolute := false,
          segs := ["debian_apache_2_4", "", "", "", "", "multiple_vhosts", "..",
                   "multiple_vhosts", "apache2"] }
      = ["tmp", "t", "debian_apache_2_4", "multiple_vhosts", "apache2"] := by
  decide

/-! Concrete reports and states used by the theorems below; the report
texts are those of the repository's test suite. -/

/-- The single-line variables report whose only Define token carries two
equals signs. -/
def soloMalformedReport : String := "Define: TLS=443=24"

/-- The two-line variables report of the failing test case: the marker
Define line followed by the malformed Define line. -/
def markedMalformedReport : String := "Define: DUMP_RUN_CFG\nDefine: TLS=443=24"

/-- A parser state holding a previously committed variable table. -/
def prevState : ParserState :=
  { varTable := [("OLD", "1")], modules := [], parserPatterns := [],
    parsedFiles := [] }

/-- The full variables report of test_update_runtime_variables. -/
def defineReport : String :=
  "ServerRoot: \"/etc/apache2\"\n" ++
  "Main DocumentRoot: \"/var/www\"\n" ++
  "Main ErrorLog: \"/var/log/apache2/error.log\"\n" ++
  "Mutex ssl-stapling: using_defaults\n" ++
  "Mutex ssl-cache: using_defaults\n" ++
  "Mutex default: dir=\"/var/lock/apache2\" mechanism=fcntl\n" ++
  "Mutex watchdog-callback: using_defaults\n" ++
  "PidFile: \"/var/run/apache2/apache2.pid\"\n" ++
  "Define: TEST\n" ++
  "Define: DUMP_RUN_CFG\n" ++
  "Define: U_MICH\n" ++
  "Define: TLS=443\n" ++
  "Define: example_path=Documents/path\n" ++
  "User: name=\"www-data\" id=33 not_used\n" ++
  "Group: name=\"www-data\" id=33 not_used\n"

/-- The variable table the spec and the test expect from the full
variables report. -/
def expectedVars : VariableTable :=
  [("TEST", ""), ("U_MICH", ""), ("TLS", "443"),
   ("example_path", "Documents/path")]

/-- A variables report carrying exactly the four value Define lines of the
expected table, plus non-Define lines, but no DUMP_RUN_CFG marker line. -/
def noMarkerReport : String :=
  "ServerRoot: \"/etc/apache2\"\n" ++
  "Define: TEST\n" ++
  "Define: U_MICH\n" ++
  "Define: TLS=443\n" ++
  "Define: example_path=Documents/path\n" ++
  "User: name=\"www-data\" id=33 not_used"

/-! Lemmas about the variables-report parser. -/

/-- A token list containing a token with more than one equals sign makes
the token loop fail with the generic domain error. -/
theorem buildVars_error (ts : List (List Char)) :
    ∀ acc, (∃ t ∈ ts, 1 < t.count '=') → buildVars acc ts = .error .pluginError := by
  induction ts with
  | nil =>
    intro acc h
    rcases h with ⟨t, ht, _⟩
    cases ht
  | cons t ts ih =>
    intro acc h
    by_cases hc : 1 < t.count '='
    · simp only [buildVars, if_pos hc]
    · rcases h with ⟨u, hu, hcu⟩
      rcases List.mem_cons.mp hu with rfl | hmem
      · exact absurd hcu hc
      · simp only [buildVars, if_neg hc]
        exact ih _ ⟨u, hmem, hcu⟩

/-- When the marker token is present and some Define token carries more
than one equals sign, the variables-report parse fails with the generic
domain error. -/
theorem parse_defines_error (s : String)
    (hm : dumpRunCfgMarker ∈ definesOf s)
    (hbad : ∃ t ∈ definesOf s, 1 < t.count '=') :
    parse_defines s = .error .pluginError := by
  rcases hbad with ⟨t, ht, hc⟩
  have hne : t ≠ dumpRunCfgMarker := by
    intro h
    rw [h] at hc
    exact absurd hc (by decide)
  have hmem : t ∈ (definesOf s).erase dumpRunCfgMarker :=
    (List.mem_erase_of_ne hne).mpr ht
  show (if dumpRunCfgMarker ∈ definesOf s then
          buildVars [] ((definesOf s).erase dumpRunCfgMarker)
        else .ok []) = .error .pluginError
  rw [if_pos hm]
  exact buildVars_error _ _ ⟨t, hmem, hc⟩

/-- A reconciliation whose variables subprocess exits cleanly but whose
report fails to parse stops immediately with that parse error and the
original state. -/
theorem update_vars_parse_error (st : ParserState) (env : RuntimeEnv)
    (vOut : String) (e : ApacheError)
    (hv : env.vars = .finished 0 vOut)
    (hp : parse_defines vOut = .error e) :
    update_runtime_variables st env = (st, some e) := by
  unfold update_runtime_variables
  rw [hv]
  have hcfg : getRuntimeCfg (.finished 0 vOut) = .ok vOut := rfl
  rw [hcfg]
  dsimp only
  rw [hp]

/-- After a clean variables subprocess run whose report parses, the
resulting state carries exactly the parsed table, whatever happens to the
later stages. -/
theorem update_vars_table (st : ParserState) (env : RuntimeEnv)
    (vOut : String) (tbl : VariableTable)
    (hv : env.vars = .finished 0 vOut)
    (hp : parse_defines vOut = .ok tbl) :
    (update_runtime_variables st env).1.varTable = tbl := by
  unfold update_runtime_variables
  rw [hv]
  have hcfg : getRuntimeCfg (.finished 0 vOut) = .ok vOut := rfl
  rw [hcfg]
  dsimp only
  rw [hp]
  dsimp only
  cases hI : getRuntimeCfg env.includes with
  | error e => rfl
  | ok iOut =>
    dsimp only
    cases hM : getRuntimeCfg env.modules with
    | error e => rfl
    | ok mOut => rfl

/-- C1.  The claim as stated fails on the code: the single-line variables
report whose only Define token carries two equals signs is accepted by the
reconciliation without any error, and the previously committed variable
table is even overwritten with the empty table. -/
theorem c1_counterexample :
    hasMalformedDefine soloMalformedReport = true ∧
    (update_runtime_variables prevState
        (cleanEnv soloMalformedReport soloMalformedReport soloMalformedReport)).2
      = none ∧
    (update_runtime_variables prevState
        (cleanEnv soloMalformedReport soloMalformedReport soloMalformedReport)).1.varTable
      = [] := by
  decide

/-- C1 (amended).  Whenever the variables report's Define tokens include
the DUMP_RUN_CFG marker and some Define token carries more than one
unescaped equals sign, the reconciliation fails with the generic domain
error (PluginError) and the previously committed state, its variable table
included, is returned unchanged. -/
theorem c1_marker_gated_malformed_define (st : ParserState) (env : RuntimeEnv)
    (vOut : String)
    (hv : env.vars = .finished 0 vOut)
    (hm : dumpRunCfgMarker ∈ definesOf vOut)
    (hbad : ∃ t ∈ definesOf vOut, 1 < t.count '=') :
    update_runtime_variables st env = (st, some .pluginError) :=
  update_vars_parse_error st env vOut .pluginError hv
    (parse_defines_error vOut hm hbad)

/-- Witness for C1 (amended) at the failing test input: the marker line
followed by the malformed line yields the domain error and leaves the
previously committed table untouched. -/
theorem c1_witness :
    update_runtime_variables prevState
        (cleanEnv markedMalformedReport markedMalformedReport
          markedMalformedReport)
      = (prevState, some .pluginError) :=
  c1_marker_gated_malformed_define prevState
    (cleanEnv markedMalformedReport markedMalformedReport markedMalformedReport)
    markedMalformedReport rfl (by decide) (by decide)

/-- C2.  The reconciliation accepts a malformed Define line when it is the
report's only Define line: on the single-line report the run completes
without error, while the same malformed line preceded by the marker Define
line fails with the generic domain error. -/
theorem c2_solo_malformed_define_accepted :
    hasMalformedDefine soloMalformedReport = true ∧
    (update_runtime_variables (initState [])
        (cleanEnv soloMalformedReport soloMalformedReport soloMalformedReport)).2
      = none ∧
    (update_runtime_variables (initState [])
        (cleanEnv markedMalformedReport markedMalformedReport
          markedMalformedReport)).2
      = some .pluginError := by
  decide

/-- C5.  A reconciliation whose introspection subprocess cannot be spawned
or exits with a non-zero status fails with the server-unusable error
(MisconfigurationError), leaves the state unchanged, and that error kind
is distinct from the generic domain error. -/
theorem c5_subprocess_failure_misconfiguration (st : ParserState)
    (env : RuntimeEnv)
    (h : env.vars = .spawnFailure ∨
      ∃ c out, env.vars = .finished c out ∧ c ≠ 0) :
    update_runtime_variables st env = (st, some .misconfigurationError) ∧
      ApacheError.misconfigurationError ≠ ApacheError.pluginError := by
  constructor
  · unfold update_runtime_variables
    rcases h with h | ⟨c, out, h, hc⟩
    · rw [h]
      rfl
    · rw [h]
      have hcfg : getRuntimeCfg (.finished c out) = .error .misconfigurationError := by
        show (if c = 0 then Except.ok out
              else Except.error ApacheError.misconfigurationError) = _
        rw [if_neg hc]
      rw [hcfg]
  · decide

/-- Witness for C5: a spawn failure of the variables invocation. -/
theorem c5_witness :
    update_runtime_variables (initState [])
        { vars := .spawnFailure, includes := .spawnFailure,
          modules := .spawnFailure }
      = (initState [], some .misconfigurationError) ∧
      ApacheError.misconfigurationError ≠ ApacheError.pluginError :=
  c5_subprocess_failure_misconfiguration (initState [])
    { vars := .spawnFailure, includes := .spawnFailure,
      modules := .spawnFailure }
    (Or.inl rfl)

/-- C6.  The claim as stated fails on the code: a variables report
carrying exactly the four expected Define lines plus non-Define lines, but
no DUMP_RUN_CFG marker line, reconciles without error to the empty
variable table instead of the expected four-entry table. -/
theorem c6_counterexample :
    (update_runtime_variables (initState [])
        (cleanEnv noMarkerReport noMarkerReport noMarkerReport)).1.varTable
      = [] ∧
    (update_runtime_variables (initState [])
        (cleanEnv noMarkerReport noMarkerReport noMarkerReport)).2 = none ∧
    ([] : VariableTable) ≠ expectedVars := by
  decide

/-- C6 (amended).  For every variables report whose Define tokens are
exactly TEST, DUMP_RUN_CFG, U_MICH, TLS=443 and example_path=Documents/path
in report order — arbitrary non-Define lines contributing nothing — the
reconciliation commits exactly the table mapping TEST and U_MICH to the
empty string, TLS to 443 and example_path to Documents/path; the marker
token itself contributes no entry. -/
theorem c6_variable_table_contents (st : ParserState) (env : RuntimeEnv)
    (vOut : String)
    (hv : env.vars = .finished 0 vOut)
    (hd : definesOf vOut =
      ["TEST".data, dumpRunCfgMarker, "U_MICH".data, "TLS=443".data,
       "example_path=Documents/path".data]) :
    (update_runtime_variables st env).1.varTable = expectedVars := by
  have hp : parse_defines vOut = .ok expectedVars := by
    show (if dumpRunCfgMarker ∈ definesOf vOut then
            buildVars [] ((definesOf vOut).erase dumpRunCfgMarker)
          else .ok []) = .ok expectedVars
    rw [hd]
    decide
  exact update_vars_table st env vOut expectedVars hv hp

/-- Witness for C6 (amended) at the full variables report of the test
suite, whose non-Define lines are ignored. -/
theorem c6_witness :
    (update_runtime_variables (initState [])
        (cleanEnv defineReport defineReport defineReport)).1.varTable
      = expectedVars :=
  c6_variable_table_contents (initState [])
    (cleanEnv defineReport defineReport defineReport) defineReport rfl
    (by decide)

/-! The includes report and the file-load discipline (claim C3). -/

/-- The full includes report of test_update_runtime_variables: twenty-five
listed configuration files. -/
def incReport : String :=
  "Included configuration files:\n" ++
  "  (*) /etc/apache2/apache2.conf\n" ++
  "    (146) /etc/apache2/mods-enabled/access_compat.load\n" ++
  "    (146) /etc/apache2/mods-enabled/alias.load\n" ++
  "    (146) /etc/apache2/mods-enabled/auth_basic.load\n" ++
  "    (146) /etc/apache2/mods-enabled/authn_core.load\n" ++
  "    (146) /etc/apache2/mods-enabled/authn_file.load\n" ++
  "    (146) /etc/apache2/mods-enabled/authz_core.load\n" ++
  "    (146) /etc/apache2/mods-enabled/authz_host.load\n" ++
  "    (146) /etc/apache2/mods-enabled/authz_user.load\n" ++
  "    (146) /etc/apache2/mods-enabled/autoindex.load\n" ++
  "    (146) /etc/apache2/mods-enabled/deflate.load\n" ++
  "    (146) /etc/apache2/mods-enabled/dir.load\n" ++
  "    (146) /etc/apache2/mods-enabled/env.load\n" ++
  "    (146) /etc/apache2/mods-enabled/filter.load\n" ++
  "    (146) /etc/apache2/mods-enabled/mime.load\n" ++
  "    (146) /etc/apache2/mods-enabled/mpm_event.load\n" ++
  "    (146) /etc/apache2/mods-enabled/negotiation.load\n" ++
  "    (146) /etc/apache2/mods-enabled/reqtimeout.load\n" ++
  "    (146) /etc/apache2/mods-enabled/setenvif.load\n" ++
  "    (146) /etc/apache2/mods-enabled/socache_shmcb.load\n" ++
  "    (146) /etc/apache2/mods-enabled/ssl.load\n" ++
  "    (146) /etc/apache2/mods-enabled/status.load\n" ++
  "    (147) /etc/apache2/mods-enabled/alias.conf\n" ++
  "    (147) /etc/apache2/mods-enabled/autoindex.conf\n" ++
  "    (147) /etc/apache2/mods-enabled/deflate.conf\n"

/-- A parsed-file set for the witness: one exact previously loaded file
and one wildcard-style include pattern, neither covering any file of the
includes report above. -/
def c3Patterns : List String :=
  ["/tmp/c/apache2.conf", "/tmp/c/sites-enabled/*.conf"]

/-- A pattern without a wildcard matches exactly itself. -/
theorem fnmatch_self (l : List Char) (h : '*' ∉ l) : fnmatch l l = true := by
  induction l with
  | nil => rfl
  | cons c cs ih =>
    have hc : c ≠ '*' := fun he => h (he ▸ List.mem_cons_self c cs)
    have hcs : '*' ∉ cs := fun hm => h (List.mem_cons_of_mem c hm)
    have ihg : fnmatchGo cs cs = true := ih hcs
    show fnmatchGo (c :: cs) (c :: cs) = true
    simp only [fnmatchGo, if_neg hc]
    simp [ihg]

/-- C3.  The file-load discipline of the reconciliation: when no listed
file of the includes report is covered by the parsed-file set, exactly one
load happens per listed file (twenty-five listed files give twenty-five
loads); a file covered by the parsed-file set — an exact previously loaded
path or a matching wildcard-style include — is never loaded. -/
theorem c3_include_load_discipline (patterns : List String) (incOut : String) :
    ((∀ f ∈ parse_includes incOut, coveredBy patterns f = false) →
      (filesToLoad patterns incOut).length = (parse_includes incOut).length) ∧
    (∀ f, coveredBy patterns f = true → f ∉ filesToLoad patterns incOut) ∧
    (∀ f ∈ patterns, '*' ∉ f.data → f ∉ filesToLoad patterns incOut) := by
  refine ⟨?_, ?_, ?_⟩
  · intro hall
    unfold filesToLoad
    rw [List.filter_eq_self.mpr]
    intro f hf
    rw [hall f hf]
    rfl
  · intro f hcov hmem
    have hp := (List.mem_filter.mp hmem).2
    rw [hcov] at hp
    exact absurd hp (by decide)
  · intro f hf hstar hmem
    have hcov : coveredBy patterns f = true := by
      unfold coveredBy
      rw [List.any_eq_true]
      exact ⟨f, hf, fnmatch_self f.data hstar⟩
    have hp := (List.mem_filter.mp hmem).2
    rw [hcov] at hp
    exact absurd hp (by decide)

/-- Witness for C3: the twenty-five files of the test's includes report
are all uncovered and produce exactly twenty-five loads, while a file
matched by the wildcard-style include pattern is not loaded. -/
theorem c3_witness :
    (filesToLoad c3Patterns incReport).length = 25 ∧
    "/tmp/c/sites-enabled/a.conf" ∉ filesToLoad c3Patterns incReport ∧
    "/tmp/c/apache2.conf" ∉ filesToLoad c3Patterns incReport := by
  refine ⟨?_, ?_, ?_⟩
  · have h := (c3_include_load_discipline c3Patterns incReport).1 (by decide)
    rw [h]
    decide
  · exact (c3_include_load_discipline c3Patterns incReport).2.1
      "/tmp/c/sites-enabled/a.conf" (by decide)
  · exact (c3_include_load_discipline c3Patterns incReport).2.2
      "/tmp/c/apache2.conf" (by decide) (by decide)

/-! The modules report and the module table (claim C10). -/

/-- The full modules report of test_update_runtime_variables: twenty-nine
loaded modules, static and shared. -/
def modReport : String :=
  "Loaded Modules:\n" ++
  " core_module (static)\n" ++
  " so_module (static)\n" ++
  " watchdog_module (static)\n" ++
  " http_module (static)\n" ++
  " log_config_module (static)\n" ++
  " logio_module (static)\n" ++
  " version_module (static)\n" ++
  " unixd_module (static)\n" ++
  " access_compat_module (shared)\n" ++
  " alias_module (shared)\n" ++
  " auth_basic_module (shared)\n" ++
  " authn_core_module (shared)\n" ++
  " authn_file_module (shared)\n" ++
  " authz_core_module (shared)\n" ++
  " authz_host_module (shared)\n" ++
  " authz_user_module (shared)\n" ++
  " autoindex_module (shared)\n" ++
  " deflate_module (shared)\n" ++
  " dir_module (shared)\n" ++
  " env_module (shared)\n" ++
  " filter_module (shared)\n" ++
  " mime_module (shared)\n" ++
  " mpm_event_module (shared)\n" ++
  " negotiation_module (shared)\n" ++
  " reqtimeout_module (shared)\n" ++
  " setenvif_module (shared)\n" ++
  " socache_shmcb_module (shared)\n" ++
  " ssl_module (shared)\n" ++
  " status_module (shared)\n"

/-- The last character of a character list, when the list is nonempty. -/
def lastChar : List Char → Option Char
  | [] => none
  | [c] => some c
  | _ :: c :: cs => lastChar (c :: cs)

/-- The last character of an appended list with nonempty right part is the
right part's last character. -/
theorem lastChar_append (l r : List Char) (h : r ≠ []) :
    lastChar (l ++ r) = lastChar r := by
  induction l with
  | nil => rfl
  | cons c l ih =>
    cases hlr : l ++ r with
    | nil => exact absurd (List.append_eq_nil.mp hlr).2 h
    | cons x xs =>
      have hstep : lastChar (c :: (l ++ r)) = lastChar (l ++ r) := by
        rw [hlr]
        exact rfl
      rw [List.cons_append, hstep, ih]

/-- The first registered identifier of a module ends in the letter e. -/
theorem lastChar_modKeyA (n : List Char) : lastChar (modKeyA n) = some 'e' := by
  rw [modKeyA, lastChar_append _ _ (by decide)]
  decide

/-- The second registered identifier of a module ends in the letter c. -/
theorem lastChar_modKeyB (n : List Char) : lastChar (modKeyB n) = some 'c' := by
  rw [modKeyB, lastChar_append _ _ (by decide)]
  decide

/-- The two identifier families of the module table never collide. -/
theorem modKeyA_ne_modKeyB (m n : List Char) : modKeyA m ≠ modKeyB n := by
  intro h
  have h1 := lastChar_modKeyA m
  rw [h, lastChar_modKeyB n] at h1
  exact absurd h1 (by decide)

/-- Within a family, identifiers of distinct module names are distinct. -/
theorem modKeyA_inj (m n : List Char) (h : modKeyA m = modKeyA n) : m = n :=
  List.append_cancel_right h

/-- Within the second family, identifiers of distinct module names are
distinct. -/
theorem modKeyB_inj (m n : List Char) (h : modKeyB m = modKeyB n) : m = n := by
  rw [modKeyB, modKeyB] at h
  exact List.append_cancel_left (List.append_cancel_right h)

/-- Key lookup distributes over appending one entry. -/
theorem hasKey_append (t : ModuleTable) (e : List Char × Option String)
    (k : List Char) :
    hasKey (t ++ [e]) k = (hasKey t k || decide (e.1 = k)) := by
  induction t with
  | nil =>
    by_cases h : e.1 = k
    · simp [hasKey, h]
    · simp [hasKey, h]
  | cons x xs ih =>
    by_cases hx : x.1 = k
    · simp [hasKey, hx]
    · rw [List.cons_append]
      show (if x.1 = k then true else hasKey (xs ++ [e]) k) =
        ((if x.1 = k then true else hasKey xs k) || decide (e.1 = k))
      rw [if_neg hx, if_neg hx, ih]

/-- Key lookup distributes over appending two entries. -/
theorem hasKey_append_two (t : ModuleTable) (a b : List Char × Option String)
    (k : List Char) :
    hasKey (t ++ [a, b]) k =
      (hasKey t k || decide (a.1 = k) || decide (b.1 = k)) := by
  have h : t ++ [a, b] = (t ++ [a]) ++ [b] := by simp
  rw [h, hasKey_append, hasKey_append]

/-- Registering a module neither of whose identifiers is present appends
exactly its two entries. -/
theorem add_mod_absent (t : ModuleTable) (n : List Char)
    (hA : hasKey t (modKeyA n) = false) (hB : hasKey t (modKeyB n) = false) :
    add_mod t n = t ++ [(modKeyA n, none), (modKeyB n, none)] := by
  have h1 : hasKey (t ++ [(modKeyA n, none)]) (modKeyB n) = false := by
    rw [hasKey_append, hB]
    simp only [Bool.false_or, decide_eq_false_iff_not]
    exact modKeyA_ne_modKeyB n n
  unfold add_mod
  rw [hA]
  show (bif hasKey (t ++ [(modKeyA n, none)]) (modKeyB n) then
          t ++ [(modKeyA n, none)]
        else t ++ [(modKeyA n, none)] ++ [(modKeyB n, none)]) = _
  rw [h1]
  show t ++ [(modKeyA n, none)] ++ [(modKeyB n, none)] = _
  simp

/-- Folding the registration over pairwise distinct module names, none of
whose identifiers are present yet, grows the table by exactly two entries
per name. -/
theorem foldl_add_mod_length (names : List (List Char)) :
    ∀ t : ModuleTable, names.Nodup →
      (∀ n ∈ names, hasKey t (modKeyA n) = false ∧
        hasKey t (modKeyB n) = false) →
      (names.foldl add_mod t).length = t.length + 2 * names.length := by
  induction names with
  | nil =>
    intro t _ _
    simp
  | cons n ns ih =>
    intro t hnd habs
    obtain ⟨hA, hB⟩ := habs n (List.mem_cons_self n ns)
    have heq : add_mod t n = t ++ [(modKeyA n, none), (modKeyB n, none)] :=
      add_mod_absent t n hA hB
    have hn_not : n ∉ ns := (List.nodup_cons.mp hnd).1
    have habs' : ∀ m ∈ ns, hasKey (add_mod t n) (modKeyA m) = false ∧
        hasKey (add_mod t n) (modKeyB m) = false := by
      intro m hm
      have hmn : m ≠ n := fun h => hn_not (h ▸ hm)
      obtain ⟨hA', hB'⟩ := habs m (List.mem_cons_of_mem n hm)
      rw [heq]
      constructor
      · rw [hasKey_append_two, hA']
        simp only [Bool.false_or, Bool.or_eq_false_iff,
          decide_eq_false_iff_not]
        exact ⟨fun h => hmn (modKeyA_inj n m h).symm,
          fun h => modKeyA_ne_modKeyB m n h.symm⟩
      · rw [hasKey_append_two, hB']
        simp only [Bool.false_or, Bool.or_eq_false_iff,
          decide_eq_false_iff_not]
        exact ⟨fun h => modKeyA_ne_modKeyB n m h,
          fun h => hmn (modKeyB_inj n m h).symm⟩
    have hlen : (add_mod t n).length = t.length + 2 := by
      rw [heq]
      simp
    rw [List.foldl_cons, ih (add_mod t n) (List.nodup_cons.mp hnd).2 habs',
      hlen, List.length_cons]
    ring

/-- The committed module table after a fully successful reconciliation is
the registration fold over the parsed module names. -/
theorem update_modules_table (st : ParserState) (env : RuntimeEnv)
    (vOut iOut mOut : String) (tbl : VariableTable)
    (hv : env.vars = .finished 0 vOut)
    (hp : parse_defines vOut = .ok tbl)
    (hi : env.includes = .finished 0 iOut)
    (hmod : env.modules = .finished 0 mOut) :
    (update_runtime_variables st env).1.modules =
      (parse_modules_output mOut).foldl add_mod st.modules := by
  unfold update_runtime_variables
  rw [hv]
  have h1 : getRuntimeCfg (.finished 0 vOut) = .ok vOut := rfl
  rw [h1]
  dsimp only
  rw [hp]
  dsimp only
  rw [hi]
  have h2 : getRuntimeCfg (.finished 0 iOut) = .ok iOut := rfl
  rw [h2]
  dsimp only
  rw [hmod]
  have h3 : getRuntimeCfg (.finished 0 mOut) = .ok mOut := rfl
  rw [h3]

/-- C10.  Each line of the modules report contributes two entries to the
module table: a reconciliation whose modules report lists twenty-nine
pairwise distinct module names, started from an empty module table,
commits a table of exactly fifty-eight entries. -/
theorem c10_two_entries_per_module (st : ParserState) (env : RuntimeEnv)
    (vOut iOut mOut : String) (tbl : VariableTable)
    (hm0 : st.modules = [])
    (hv : env.vars = .finished 0 vOut)
    (hp : parse_defines vOut = .ok tbl)
    (hi : env.includes = .finished 0 iOut)
    (hmod : env.modules = .finished 0 mOut)
    (hnd : (parse_modules_output mOut).Nodup)
    (hlen : (parse_modules_output mOut).length = 29) :
    (update_runtime_variables st env).1.modules.length = 58 := by
  rw [update_modules_table st env vOut iOut mOut tbl hv hp hi hmod, hm0,
    foldl_add_mod_length (parse_modules_output mOut) [] hnd
      (fun n _ => ⟨rfl, rfl⟩),
    hlen]
  decide

/-- Witness for C10 at the full test reports: twenty-nine listed modules
yield a fifty-eight entry module table. -/
theorem c10_witness :
    (update_runtime_variables (initState [])
        (cleanEnv defineReport incReport modReport)).1.modules.length = 58 :=
  c10_two_entries_per_module (initState [])
    (cleanEnv defineReport incReport modReport) defineReport incReport
    modReport expectedVars rfl rfl (by decide) rfl rfl (by decide) (by decide)

/-! Directive search and counting (claim C4). -/

/-- The search over one file's directives returns as many hits as the
independent count. -/
theorem findInDirs_length (q : String) (v : Option String)
    (ds : List Directive) :
    (findInDirs q v ds).length = countInDirs q v ds := by
  induction ds with
  | nil => rfl
  | cons d rest ih =>
    by_cases h : dirMatches q v d
    · simp [findInDirs, countInDirs, h, ih, Nat.add_comm]
    · simp [findInDirs, countInDirs, h, ih]

/-- The tree-wide search returns as many hits as the independent count
over the in-effect files. -/
theorem find_dir_length (t : List ConfigFile) (q : String) (v : Option String) :
    (find_dir t q v).length = countDir t q v := by
  induction t with
  | nil => rfl
  | cons f rest ih =>
    show ((if f.enabled then findInDirs q v f.dirs else []) ++
        find_dir rest q v).length = _
    rw [List.length_append, ih]
    by_cases h : f.enabled
    · simp [countDir, h, findInDirs_length]
    · simp [countDir, h]

/-- The match condition only sees the lower-cased query. -/
theorem dirMatches_congr (q1 q2 : String) (v : Option String) (d : Directive)
    (h : lowerStr q1 = lowerStr q2) : dirMatches q1 v d = dirMatches q2 v d := by
  simp [dirMatches, h]

/-- The per-file search is invariant under the query's casing. -/
theorem findInDirs_congr (q1 q2 : String) (v : Option String)
    (ds : List Directive) (h : lowerStr q1 = lowerStr q2) :
    findInDirs q1 v ds = findInDirs q2 v ds := by
  induction ds with
  | nil => rfl
  | cons d rest ih =>
    show (if dirMatches q1 v d then d :: findInDirs q1 v rest
          else findInDirs q1 v rest) = _
    rw [dirMatches_congr q1 q2 v d h, ih]
    rfl

/-- C4.  The directive search is case-insensitive in the directive name —
two queries with the same lower-casing return identical results on every
tree — and returns one address per matching in-effect directive: on the
fixture tree holding exactly one in-effect Listen directive with argument
80 and exactly eight in-effect DocumentRoot directives, the searches
return exactly 1 and exactly 8 addresses under every casing of the
name. -/
theorem c4_find_dir_counts :
    (∀ (t : List ConfigFile) (q1 q2 : String) (v : Option String),
      lowerStr q1 = lowerStr q2 → find_dir t q1 v = find_dir t q2 v) ∧
    (∀ (t : List ConfigFile) (q : String) (v : Option String),
      (find_dir t q v).length = countDir t q v) ∧
    countDir fixtureTree "Listen" (some "80") = 1 ∧
    (find_dir fixtureTree "Listen" (some "80")).length = 1 ∧
    countDir fixtureTree "DocumentRoot" none = 8 ∧
    (find_dir fixtureTree "DocumentRoot" none).length = 8 ∧
    (find_dir fixtureTree "documentroot" none).length = 8 ∧
    (find_dir fixtureTree "DOCUMENTROOT" none).length = 8 := by
  refine ⟨?_, find_dir_length, by decide, by decide, by decide, by decide,
    by decide, by decide⟩
  intro t q1 q2 v h
  induction t with
  | nil => rfl
  | cons f rest ih =>
    show (if f.enabled then findInDirs q1 v f.dirs else []) ++
        find_dir rest q1 v = _
    rw [findInDirs_congr q1 q2 v f.dirs h, ih]
    rfl

/-- Witness for C4: the two casings of the DocumentRoot query return the
same addresses on the fixture tree. -/
theorem c4_witness :
    find_dir fixtureTree "DocumentRoot" none =
      find_dir fixtureTree "documentroot" none :=
  c4_find_dir_counts.1 fixtureTree "DocumentRoot" "documentroot" none
    (by decide)

/-! Insertion at the start of a node (claim C9). -/

/-- Flattening singleton argument lists recovers the original values. -/
theorem flatten_singletons (l : List String) : (l.map fun v => [v]).flatten = l := by
  induction l with
  | nil => rfl
  | cons v vs ih => simp [ih]

/-- The per-file search distributes over list append. -/
theorem findInDirs_append (q : String) (v : Option String)
    (l1 l2 : List Directive) :
    findInDirs q v (l1 ++ l2) = findInDirs q v l1 ++ findInDirs q v l2 := by
  induction l1 with
  | nil => rfl
  | cons d rest ih =>
    show (if dirMatches q v d then d :: findInDirs q v (rest ++ l2)
          else findInDirs q v (rest ++ l2)) = _
    by_cases h : dirMatches q v d
    · simp [findInDirs, h, ih]
    · simp [findInDirs, h, ih]

/-- A list of directives that all match passes through the search
unchanged. -/
theorem findInDirs_all_match (q : String) (v : Option String)
    (ds : List Directive) (h : ∀ d ∈ ds, dirMatches q v d = true) :
    findInDirs q v ds = ds := by
  induction ds with
  | nil => rfl
  | cons d rest ih =>
    show (if dirMatches q v d then d :: findInDirs q v rest
          else findInDirs q v rest) = _
    rw [if_pos (h d (List.mem_cons_self d rest)),
      ih (fun x hx => h x (List.mem_cons_of_mem d hx))]

/-- C9.  Insertion at the start places the batch before all existing
children: the first inserted directive becomes the node's first child (so
a pre-existing first child moves one batch-length later, index 2 for a
single value), existing children keep their relative order at their
shifted positions, and reading the name back with the search returns the
inserted values first, in exactly their input order. -/
theorem c9_add_dir_beginning (children : List Directive) (name : String)
    (values : List String) :
    (∀ v vs, values = v :: vs →
      (add_dir_beginning children name values).head? = some (name, [v])) ∧
    (∀ i, (add_dir_beginning children name values)[values.length + i]? =
      children[i]?) ∧
    (∀ v, (add_dir_beginning children name [v])[1]? = children[0]?) ∧
    readValues (add_dir_beginning children name values) name =
      values ++ readValues children name := by
  refine ⟨?_, ?_, ?_, ?_⟩
  · intro v vs hv
    subst hv
    rfl
  · intro i
    unfold add_dir_beginning
    rw [List.getElem?_append_right (by simp)]
    simp
  · intro v
    show ((name, [v]) :: children)[1]? = children[0]?
    simp
  · unfold readValues add_dir_beginning
    rw [findInDirs_append, findInDirs_all_match name none _ ?hmatch]
    · rw [List.map_append, List.flatten_append, List.map_map]
      have hsnd : (Prod.snd ∘ fun v : String => (name, [v])) =
        fun v : String => [v] := rfl
      rw [hsnd, flatten_singletons]
    case hmatch =>
      intro d hd
      obtain ⟨v, _, rfl⟩ := List.mem_map.mp hd
      simp [dirMatches]

/-- Witness for C9: a four-value batch inserted before one existing child
lands at the head in input order and reads back first. -/
theorem c9_witness :
    (add_dir_beginning [("Old", ["o"])] "AddList" ["1", "2", "3", "4"]).head?
      = some ("AddList", ["1"]) ∧
    (add_dir_beginning [("Old", ["o"])] "AddList" ["1", "2", "3", "4"])[4]?
      = some ("Old", ["o"]) ∧
    readValues (add_dir_beginning [("Old", ["o"])] "AddList" ["1", "2", "3", "4"])
        "AddList" = ["1", "2", "3", "4"] := by
  refine ⟨?_, ?_, ?_⟩
  · exact (c9_add_dir_beginning [("Old", ["o"])] "AddList"
      ["1", "2", "3", "4"]).1 "1" ["2", "3", "4"] rfl
  · have h := (c9_add_dir_beginning [("Old", ["o"])] "AddList"
      ["1", "2", "3", "4"]).2.1 0
    simpa using h
  · have h := (c9_add_dir_beginning [("Old", ["o"])] "AddList"
      ["1", "2", "3", "4"]).2.2.2
    simpa using h

/-! Root-path normalization and construction failures (claims C7, C8). -/

/-- A canonical path segment: nonempty and neither the current-directory
nor the parent-directory marker. -/
def cleanSeg (s : String) : Prop :=
  s ≠ "" ∧ s ≠ "." ∧ s ≠ ".."

/-- A segment list in canonical form: every segment is canonical. -/
def Clean (l : List String) : Prop :=
  ∀ s ∈ l, cleanSeg s

instance (s : String) : Decidable (cleanSeg s) := by
  unfold cleanSeg
  infer_instance

instance (l : List String) : Decidable (Clean l) := by
  unfold Clean
  infer_instance

/-- The normalization fold processes an appended list in two stages. -/
theorem normSegsAux_append (l1 l2 : List String) :
    ∀ acc, normSegsAux acc (l1 ++ l2) = normSegsAux (normSegsAux acc l1) l2 := by
  induction l1 with
  | nil => intro acc; rfl
  | cons s l ih =>
    intro acc
    show normSegsAux acc (s :: (l ++ l2)) = _
    by_cases h1 : s = "" ∨ s = "."
    · simp only [normSegsAux, if_pos h1]
      exact ih acc
    · by_cases h2 : s = ".."
      · simp only [normSegsAux, if_neg h1, if_pos h2]
        exact ih _
      · simp only [normSegsAux, if_neg h1, if_neg h2]
        exact ih _

/-- The normalization fold appends a canonical segment list unchanged. -/
theorem normSegsAux_clean (l : List String) (h : Clean l) :
    ∀ acc, normSegsAux acc l = acc ++ l := by
  induction l with
  | nil =>
    intro acc
    simp [normSegsAux]
  | cons s l ih =>
    intro acc
    obtain ⟨hne, hnd, hndd⟩ := h s (List.mem_cons_self s l)
    have h1 : ¬(s = "" ∨ s = ".") := fun hc => hc.elim hne hnd
    simp only [normSegsAux, if_neg h1, if_neg hndd]
    rw [ih (fun x hx => h x (List.mem_cons_of_mem s hx)) (acc ++ [s])]
    simp

/-- A canonical segment list normalizes to itself. -/
theorem normSegs_clean (l : List String) (h : Clean l) : normSegs l = l := by
  unfold normSegs
  rw [normSegsAux_clean l h []]
  rfl

/-- The output of the normalization fold is canonical whenever the
accumulator is. -/
theorem clean_normSegsAux (l : List String) :
    ∀ acc, Clean acc → Clean (normSegsAux acc l) := by
  induction l with
  | nil => intro acc h; exact h
  | cons s l ih =>
    intro acc hacc
    by_cases h1 : s = "" ∨ s = "."
    · simp only [normSegsAux, if_pos h1]
      exact ih acc hacc
    · by_cases h2 : s = ".."
      · simp only [normSegsAux, if_neg h1, if_pos h2]
        refine ih _ ?_
        intro x hx
        exact hacc x ((List.dropLast_sublist acc).subset hx)
      · simp only [normSegsAux, if_neg h1, if_neg h2]
        refine ih _ ?_
        intro x hx
        rcases List.mem_append.mp hx with hx | hx
        · exact hacc x hx
        · rcases List.mem_singleton.mp hx with rfl
          exact ⟨fun hc => h1 (Or.inl hc), fun hc => h1 (Or.inr hc), h2⟩

/-- Canonical form is preserved by appending two canonical lists. -/
theorem Clean.append_clean {l1 l2 : List String} (h1 : Clean l1)
    (h2 : Clean l2) : Clean (l1 ++ l2) := by
  intro x hx
  rcases List.mem_append.mp hx with hx | hx
  exacts [h1 x hx, h2 x hx]

/-- One empty segment — a duplicated or trailing separator — is dropped by
the normalization fold. -/
theorem normSegsAux_empty_seg (acc : List String) :
    normSegsAux acc [""] = acc := by
  simp [normSegsAux]

/-- A canonical segment immediately followed by a parent marker cancels
out in the normalization fold. -/
theorem normSegsAux_updir (acc : List String) (d : String) (hd : cleanSeg d) :
    normSegsAux acc [d, ".."] = acc := by
  obtain ⟨h1, h2, h3⟩ := hd
  have hno : ¬(d = "" ∨ d = ".") := fun hc => hc.elim h1 h2
  show normSegsAux acc (d :: [".."]) = acc
  simp only [normSegsAux, if_neg hno, if_neg h3]
  simp [normSegsAux]

/-- C7.  Root normalization is input-form-independent and idempotent: a
relative form of the root, the same root given absolutely, the root with a
duplicated separator anywhere, the root with a redundant parent-directory
segment anywhere, and the root with a trailing separator all resolve to
the one canonical absolute path, and resolving an already resolved path
changes nothing. -/
theorem c7_root_normalization (cwd dirs l1 l2 : List String) (d : String)
    (hcwd : Clean cwd) (hdirs : Clean dirs) (hsplit : dirs = l1 ++ l2)
    (hd : cleanSeg d) :
    resolveRootPath cwd { absolute := false, segs := dirs } = cwd ++ dirs ∧
    resolveRootPath cwd { absolute := true, segs := cwd ++ dirs } =
      cwd ++ dirs ∧
    resolveRootPath cwd { absolute := false, segs := l1 ++ [""] ++ l2 } =
      cwd ++ dirs ∧
    resolveRootPath cwd { absolute := false, segs := l1 ++ [d, ".."] ++ l2 } =
      cwd ++ dirs ∧
    resolveRootPath cwd { absolute := false, segs := dirs ++ [""] } =
      cwd ++ dirs ∧
    (∀ p : RawPath,
      resolveRootPath cwd { absolute := true, segs := resolveRootPath cwd p } =
        resolveRootPath cwd p) := by
  have hall : Clean (cwd ++ dirs) := hcwd.append_clean hdirs
  have hl1 : Clean l1 := fun x hx => hdirs x (by rw [hsplit]; exact List.mem_append_left l2 hx)
  have hl2 : Clean l2 := fun x hx => hdirs x (by rw [hsplit]; exact List.mem_append_right l1 hx)
  have hcl1 : Clean (cwd ++ l1) := hcwd.append_clean hl1
  refine ⟨?_, ?_, ?_, ?_, ?_, ?_⟩
  · show normSegs (cwd ++ dirs) = cwd ++ dirs
    exact normSegs_clean _ hall
  · show normSegs (cwd ++ dirs) = cwd ++ dirs
    exact normSegs_clean _ hall
  · show normSegs (cwd ++ (l1 ++ [""] ++ l2)) = cwd ++ dirs
    have hshape : cwd ++ (l1 ++ [""] ++ l2) = ((cwd ++ l1) ++ [""]) ++ l2 := by
      simp [List.append_assoc]
    rw [hshape]
    unfold normSegs
    rw [normSegsAux_append, normSegsAux_append,
      normSegsAux_clean (cwd ++ l1) hcl1 [], List.nil_append,
      normSegsAux_empty_seg, normSegsAux_clean l2 hl2, hsplit,
      List.append_assoc]
  · show normSegs (cwd ++ (l1 ++ [d, ".."] ++ l2)) = cwd ++ dirs
    have hshape : cwd ++ (l1 ++ [d, ".."] ++ l2) =
        ((cwd ++ l1) ++ [d, ".."]) ++ l2 := by
      simp [List.append_assoc]
    rw [hshape]
    unfold normSegs
    rw [normSegsAux_append, normSegsAux_append,
      normSegsAux_clean (cwd ++ l1) hcl1 [], List.nil_append,
      normSegsAux_updir _ d hd, normSegsAux_clean l2 hl2, hsplit,
      List.append_assoc]
  · show normSegs (cwd ++ (dirs ++ [""])) = cwd ++ dirs
    have hshape : cwd ++ (dirs ++ [""]) = (cwd ++ dirs) ++ [""] := by
      simp [List.append_assoc]
    rw [hshape]
    unfold normSegs
    rw [normSegsAux_append, normSegsAux_clean (cwd ++ dirs) hall [],
      List.nil_append, normSegsAux_empty_seg]
  · intro p
    show normSegs (resolveRootPath cwd p) = resolveRootPath cwd p
    refine normSegs_clean _ ?_
    unfold resolveRootPath normSegs
    exact clean_normSegsAux _ [] (fun x hx => absurd hx (List.not_mem_nil x))

/-- Witness for C7 at the test's path: the relative form with duplicated
separators and a redundant parent segment resolves to the canonical
absolute root. -/
theorem c7_witness :
    resolveRootPath ["tmp", "t"]
        { absolute := false,
          segs := ["debian_apache_2_4", "multiple_vhosts", "..",
                   "multiple_vhosts", "apache2"] }
      = ["tmp", "t", "debian_apache_2_4", "multiple_vhosts", "apache2"] :=
  (c7_root_normalization ["tmp", "t"]
      ["debian_apache_2_4", "multiple_vhosts", "apache2"]
      ["debian_apache_2_4"] ["multiple_vhosts", "apache2"] "multiple_vhosts"
      (by decide) (by decide) rfl (by decide)).2.2.2.1

/-- C8.  Construction fails with NoInstallationError whenever the
normalized root's expected entry file is absent, fails with
NotSupportedError whenever the entry file is present but the engine
version is below the minimum supported, and no usable parser results from
either failure: a successful construction certifies both checks. -/
theorem c8_construction_failures (cwd : List String) (p : RawPath)
    (e : ResolveEnv) :
    (e.entryExists = false →
      resolveRoot cwd p e = .error .noInstallationError) ∧
    (e.entryExists = true → e.versionOk = false →
      resolveRoot cwd p e = .error .notSupportedError) ∧
    (∀ r, resolveRoot cwd p e = .ok r →
      e.entryExists = true ∧ e.versionOk = true) := by
  unfold resolveRoot
  refine ⟨?_, ?_, ?_⟩
  · intro h
    rw [h]
    simp
  · intro h1 h2
    rw [h1, h2]
    simp
  · intro r h
    cases he : e.entryExists
    · rw [he] at h
      simp at h
    · cases hv : e.versionOk
      · rw [he, hv] at h
        simp at h
      · exact ⟨rfl, rfl⟩

/-- Witness for C8: a version below the minimum fails construction with
NotSupportedError, an absent entry file with NoInstallationError. -/
theorem c8_witness :
    resolveRoot ["tmp"] { absolute := true, segs := ["etc", "apache2"] }
        { versionOk := false, entryExists := true }
      = .error .notSupportedError ∧
    resolveRoot ["tmp"] { absolute := true, segs := ["etc", "apache2"] }
        { versionOk := true, entryExists := false }
      = .error .noInstallationError :=
  ⟨(c8_construction_failures ["tmp"]
      { absolute := true, segs := ["etc", "apache2"] }
      { versionOk := false, entryExists := true }).2.1 rfl rfl,
   (c8_construction_failures ["tmp"]
      { absolute := true, segs := ["etc", "apache2"] }
      { versionOk := true, entryExists := false }).1 rfl⟩

end Certbot
